import Mathlib

/-!
Verification of the stocks-pipeline repository.

Shallow embedding of the two lambda handlers:
  * src/lambdas/ingestion/handler.py  (ingestion pipeline)
  * src/lambdas/query/handler.py      (query service)

Modelling conventions:
  * Python floats are embedded as exact rationals (ℚ).
  * ISO-8601 calendar-date strings compare lexicographically exactly as the
    dates they denote, so dates are embedded as integers (day numbers, ℤ);
    `date.today() - timedelta(days=i)` becomes `today - i`.
  * Network and storage effects are passed in as explicit oracles: the
    sequence of HTTP outcomes a ticker fetch observes, the per-ticker fetch
    result seen by the ingestion main loop, the success of the DynamoDB
    write, and the contents of the date-keyed store seen by the query.
  * A Python exception propagating out of a handler is an `Except.error`;
    a normal return is `Except.ok`.
-/

namespace StocksPipeline

/-! ### Configuration constants (ingestion/handler.py lines 31-38) -/

def WATCHLIST : List String := ["AAPL", "MSFT", "GOOGL", "AMZN", "TSLA", "NVDA"]

def RETRY_DELAY : ℚ := 1

def MAX_RETRIES : ℕ := 2

/-! ### Python-style rounding

`round(x, n)` in Python rounds to `n` fractional digits with ties going to
the even last digit (banker's rounding).  On our exact-rational embedding
this is: scale by `10^n`, round half-to-even to an integer, scale back. -/

def roundHalfEven (y : ℚ) : ℤ :=
  let f : ℤ := ⌊y⌋
  if y - f < 1/2 then f
  else if 1/2 < y - f then f + 1
  else if f % 2 = 0 then f else f + 1

def pyRound (ndigits : ℕ) (x : ℚ) : ℚ :=
  (roundHalfEven (x * 10 ^ ndigits) : ℚ) / 10 ^ ndigits

/-! ### Python truthiness of `a or b` on optional numbers

`bar.get("o") or bar.get("O")` yields `bar.get("o")` unless that value is
falsy (absent, or the number 0), in which case it yields `bar.get("O")`. -/

def pyOr (a b : Option ℚ) : Option ℚ :=
  match a with
  | some v => if v = 0 then b else some v
  | none => b

/-! ### Market data client (ingestion/handler.py `fetch_ticker`, lines 58-123) -/

/-- One aggregate bar as parsed from the JSON body of a 200 response;
every field may be missing. -/
structure Bar where
  o : Option ℚ
  O : Option ℚ
  c : Option ℚ
  C : Option ℚ
deriving DecidableEq, Repr

/-- The transient quote `{"O": float, "C": float}` returned by `fetch_ticker`. -/
structure Quote where
  O : ℚ
  C : ℚ
deriving DecidableEq, Repr

/-- The HTTP-200 branch of `fetch_ticker` (lines 72-92): classify the parsed
result list into a quote or `None`. -/
def fetch_ticker_200 (results : List Bar) : Option Quote :=
  match results with
  | [] => none
  | bar :: _ =>
    let open_price := pyOr bar.o bar.O
    let close_price := pyOr bar.c bar.C
    match open_price, close_price with
    | some op, some cp => if op = 0 then none else some ⟨op, cp⟩
    | some _, none => none
    | none, _ => none

/-- What one attempt of the `requests.get` call in `fetch_ticker` observes. -/
inductive NetOutcome where
  | http (status : ℕ) (results : List Bar)
  | timeout
  | connError
  | otherError
deriving DecidableEq, Repr

/-- The retry loop of `fetch_ticker` (lines 68-123), driven by the oracle
list of per-attempt network outcomes.  Returns the fetch result together
with the list of sleep delays the retry logic performed (in seconds).
The loop header `for attempt in range(1, MAX_RETRIES + 2)` runs attempts
1 .. MAX_RETRIES + 1; once `attempt` exceeds that bound the loop has ended
and the function returns `None` (line 123). -/
def fetch_ticker_go : ℕ → List NetOutcome → Option Quote × List ℚ
  | _, [] => (none, [])
  | attempt, o :: rest =>
    if MAX_RETRIES + 1 < attempt then (none, [])
    else
      match o with
      | NetOutcome.http s results =>
        if s = 200 then (fetch_ticker_200 results, [])
        else if s = 429 then
          let p := fetch_ticker_go (attempt + 1) rest
          (p.1, RETRY_DELAY * 2 ^ (attempt - 1) :: p.2)
        else if s = 500 ∨ s = 502 ∨ s = 503 ∨ s = 504 then
          let p := fetch_ticker_go (attempt + 1) rest
          (p.1, RETRY_DELAY :: p.2)
        else (none, [])
      | NetOutcome.timeout =>
        let p := fetch_ticker_go (attempt + 1) rest
        (p.1, RETRY_DELAY :: p.2)
      | NetOutcome.connError => (none, [])
      | NetOutcome.otherError => (none, [])

/-- `fetch_ticker` for a single ticker: run the attempt loop from attempt 1. -/
def fetch_ticker (outcomes : List NetOutcome) : Option Quote × List ℚ :=
  fetch_ticker_go 1 outcomes

/-- An outcome on which the retry loop continues to the next attempt. -/
def Retryable (o : NetOutcome) : Prop :=
  o = NetOutcome.timeout ∨
    ∃ s b, o = NetOutcome.http s b ∧ (s = 429 ∨ s = 500 ∨ s = 502 ∨ s = 503 ∨ s = 504)

instance : DecidablePred Retryable := fun o => by
  unfold Retryable
  cases o with
  | http s b =>
    refine decidable_of_iff (s = 429 ∨ s = 500 ∨ s = 502 ∨ s = 503 ∨ s = 504) ?_
    constructor
    · intro h; exact Or.inr ⟨s, b, rfl, h⟩
    · rintro (h | ⟨s', b', heq, h⟩)
      · exact absurd h (by simp)
      · cases heq; exact h
  | timeout => exact Decidable.isTrue (Or.inl rfl)
  | connError =>
    refine Decidable.isFalse ?_
    rintro (h | ⟨s, b, h, _⟩) <;> simp at h
  | otherError =>
    refine Decidable.isFalse ?_
    rintro (h | ⟨s, b, h, _⟩) <;> simp at h

/-! ### Mover calculator (ingestion/handler.py lines 126-128 and 195) -/

def calculate_pct_change (open_price close_price : ℚ) : ℚ :=
  ((close_price - open_price) / open_price) * 100

/-- The scan underlying Python's `max(xs, key=k)`: fold left, replacing the
current maximum only on a strictly greater key. -/
def pyfold {α : Type} (key : α → ℚ) (a : α) (xs : List α) : α :=
  xs.foldl (fun acc y => if key acc < key y then y else acc) a

/-- Python's `max(xs, key=k)`: scan left to right, replace the current
maximum only on a strictly greater key, so the first of several tied
maxima wins.  `none` exactly on the empty list (Python raises there). -/
def pymax {α : Type} (key : α → ℚ) : List α → Option α
  | [] => none
  | x :: xs => some (pyfold key x xs)

/-! ### Storage write (ingestion/handler.py `write_winner`, lines 131-146) -/

/-- The persisted MoverRecord item, as assembled by `write_winner`
(`str(...)` renders the rounded decimal exactly, so the numeric fields are
kept as the rounded rationals). -/
structure MoverItem where
  date : ℤ
  ticker : String
  percent_change : ℚ
  closing_price : ℚ
  ingested_at : String
deriving DecidableEq, Repr

/-- The item `write_winner` puts, before the write may fail. -/
def write_winner_item (trade_date : ℤ) (ticker : String)
    (pct_change closing_price : ℚ) (now : String) : MoverItem :=
  { date := trade_date
    ticker := ticker
    percent_change := pyRound 4 pct_change
    closing_price := pyRound 2 closing_price
    ingested_at := now }

/-! ### Ingestion handler (ingestion/handler.py `main`, lines 151-219) -/

/-- One entry of the `results` list built by the main loop (lines 175-179). -/
structure TickerResult where
  ticker : String
  pct_change : ℚ
  closing_price : ℚ
deriving DecidableEq, Repr

/-- The JSON body of the ingestion handler's return value. -/
inductive IngestBody where
  | credFailure
  | noData (date : ℤ)
  | summary (date : ℤ) (winner : String) (percent_change : ℚ)
      (closing_price : ℚ) (tickers_processed : ℕ) (tickers_failed : List String)
deriving DecidableEq, Repr

/-- Observable effect of one ingestion run: the handler's return value (or
the propagated exception), how many ticker fetches were attempted, how many
storage writes were attempted, and the items actually committed. -/
structure IngestRun where
  response : Except String (ℕ × IngestBody)
  fetches_attempted : ℕ
  write_attempts : ℕ
  writes : List MoverItem
deriving Repr

/-- The ingestion `main`, with its effects supplied as oracles:
`cred` is the result of `get_api_key` (`none` = the Secrets Manager call
raised), `fetch` gives `fetch_ticker`'s result per ticker, `write_ok` says
whether the DynamoDB `put_item` succeeds.  An exception propagating out of
`main` is `Except.error`. -/
def ingest_main (trade_date : ℤ) (now : String) (cred : Option String)
    (fetch : String → Option Quote) (write_ok : Bool) : IngestRun :=
  match cred with
  | none => ⟨.ok (500, .credFailure), 0, 0, []⟩
  | some _ =>
    let results : List TickerResult := WATCHLIST.filterMap fun t =>
      (fetch t).map fun q =>
        ⟨t, calculate_pct_change q.O q.C, q.C⟩
    let failed : List String := WATCHLIST.filter fun t => (fetch t).isNone
    match pymax (fun r => |r.pct_change|) results with
    | none => ⟨.ok (200, .noData trade_date), WATCHLIST.length, 0, []⟩
    | some w =>
      let item := write_winner_item trade_date w.ticker w.pct_change w.closing_price now
      if write_ok then
        ⟨.ok (200, .summary trade_date w.ticker (pyRound 4 w.pct_change)
            (pyRound 2 w.closing_price) results.length failed),
          WATCHLIST.length, 1, [item]⟩
      else
        ⟨.error "ClientError", WATCHLIST.length, 1, []⟩

/-! ### Query lambda (src/lambdas/query/handler.py) -/

def DAYS_TO_RETURN : ℕ := 7

/-- `CORS_HEADERS` (query/handler.py lines 33-38), as header name/value pairs. -/
def CORS_HEADERS : List (String × String) :=
  [("Access-Control-Allow-Origin", "*"),
   ("Access-Control-Allow-Headers", "Content-Type"),
   ("Access-Control-Allow-Methods", "GET,OPTIONS"),
   ("Content-Type", "application/json")]

/-- `get_date_range` (lines 51-54): the last `days` calendar dates,
today first. -/
def get_date_range (today : ℤ) (days : ℕ) : List ℤ :=
  (List.range days).map fun (i : ℕ) => today - (i : ℤ)

/-- A Python exception on the query path. -/
inductive PyErr where
  | clientError (msg : String)
  | keyError (field : String)
  | other (msg : String)
deriving DecidableEq, Repr

/-- An item as returned by the projected `batch_get_item` read: any of the
four projected attributes may be missing on a given stored record. -/
structure RawItem where
  date : Option ℤ
  ticker : Option String
  percent_change : Option ℚ
  closing_price : Option ℚ
deriving DecidableEq, Repr

/-- The written `MoverItem`, as it comes back through the projection
(`ingested_at` is not projected). -/
def MoverItem.toRaw (it : MoverItem) : RawItem :=
  ⟨some it.date, some it.ticker, some it.percent_change, some it.closing_price⟩

/-- `query_movers` (lines 57-87) on an abstract date-keyed store: the batch
get returns one item per requested key that exists, in request order. -/
def query_movers (dates : List ℤ) (store : ℤ → Option RawItem) : List RawItem :=
  dates.filterMap store

/-- The normalized record produced by `format_item`. -/
structure FormattedItem where
  date : ℤ
  ticker : String
  percent_change : ℚ
  closing_price : ℚ
deriving DecidableEq, Repr

/-- `format_item` (lines 90-97).  `item["date"]` and `item["ticker"]` raise
`KeyError` when absent; `item.get("percent_change", 0)` and
`item.get("closing_price", 0)` default to 0, then both numeric fields are
rounded to 2 fractional digits. -/
def format_item (item : RawItem) : Except PyErr FormattedItem :=
  match item.date with
  | none => .error (.keyError "date")
  | some d =>
    match item.ticker with
    | none => .error (.keyError "ticker")
    | some t =>
      .ok ⟨d, t, pyRound 2 (item.percent_change.getD 0),
        pyRound 2 (item.closing_price.getD 0)⟩

/-- The list comprehension `[format_item(item) for item in items]`: stops at
the first raised exception. -/
def formatAll : List RawItem → Except PyErr (List FormattedItem)
  | [] => .ok []
  | it :: rest =>
    match format_item it with
    | .error e => .error e
    | .ok f =>
      match formatAll rest with
      | .error e => .error e
      | .ok fs => .ok (f :: fs)

/-- Stable insert for descending order by date: `x` goes in front of the
first element whose date is not above `x`'s. -/
def insertDesc (x : FormattedItem) : List FormattedItem → List FormattedItem
  | [] => [x]
  | y :: ys => if y.date ≤ x.date then x :: y :: ys else y :: insertDesc x ys

/-- `sorted(..., key=lambda x: x["date"], reverse=True)`: a stable sort,
most recent date first. -/
def sortDesc : List FormattedItem → List FormattedItem
  | [] => []
  | x :: xs => insertDesc x (sortDesc xs)

/-- The JSON body of a query response. -/
inductive QueryBody where
  | moversBody (movers : List FormattedItem) (count : ℕ)
  | errBody (error : String) (message : PyErr)
  | emptyBody
deriving DecidableEq, Repr

/-- An API Gateway response from the query handler. -/
structure QueryResp where
  statusCode : ℕ
  headers : List (String × String)
  body : QueryBody
deriving DecidableEq, Repr

/-- The query `main` (lines 102-139).  `storeCall` is the outcome of the
`batch_get_item` round trip: `.error` when DynamoDB raises, otherwise the
store contents.  Any exception inside the `try` block — the re-raised
`ClientError` or a `KeyError` from `format_item` — is caught at the boundary
and converted to a 500 response carrying `CORS_HEADERS`. -/
def query_main (httpMethod : String) (today : ℤ)
    (storeCall : Except PyErr (ℤ → Option RawItem)) : QueryResp :=
  if httpMethod = "OPTIONS" then ⟨200, CORS_HEADERS, .emptyBody⟩
  else
    let date_range := get_date_range today DAYS_TO_RETURN
    match storeCall with
    | .error e => ⟨500, CORS_HEADERS, .errBody "Internal server error" e⟩
    | .ok store =>
      let items := query_movers date_range store
      match formatAll items with
      | .error e => ⟨500, CORS_HEADERS, .errBody "Internal server error" e⟩
      | .ok fs =>
        let movers := sortDesc fs
        ⟨200, CORS_HEADERS, .moversBody movers movers.length⟩

/-! ## Theorems -/

/-- C2: for every open > 0 and every close, the percent-change computation
returns exactly ((close − open) / open) * 100; equivalently (cross-multiplied,
which genuinely uses open ≠ 0) open · pct = (close − open) · 100. -/
theorem c2_pct_change_formula (o c : ℚ) (h : 0 < o) :
    calculate_pct_change o c = ((c - o) / o) * 100 ∧
    o * calculate_pct_change o c = (c - o) * 100 := by
  refine ⟨rfl, ?_⟩
  unfold calculate_pct_change
  field_simp

/-- Witness for C2 at open = 4, close = 5 (pct = 25). -/
theorem c2_pct_change_formula_witness :
    calculate_pct_change 4 5 = ((5 - 4) / 4) * 100 ∧
    (4 : ℚ) * calculate_pct_change 4 5 = (5 - 4) * 100 :=
  c2_pct_change_formula 4 5 (by norm_num)

/-- C3: on an HTTP 200 response, `fetch_ticker` returns `None` exactly when
the result list is empty, or the first bar's extracted open or close is
missing, or its extracted open is 0; in every other case it returns the
quote {O: open, C: close} from the first bar. -/
theorem c3_http200_classification (results : List Bar) :
    (fetch_ticker_200 results = none ↔
      results = [] ∨
        ∃ bar rest, results = bar :: rest ∧
          (pyOr bar.o bar.O = none ∨ pyOr bar.c bar.C = none ∨
            pyOr bar.o bar.O = some 0)) ∧
    (∀ bar rest op cp, results = bar :: rest →
      pyOr bar.o bar.O = some op → pyOr bar.c bar.C = some cp → op ≠ 0 →
      fetch_ticker_200 results = some ⟨op, cp⟩) := by
  constructor
  · cases results with
    | nil => simp [fetch_ticker_200]
    | cons bar rest =>
      simp only [fetch_ticker_200]
      rcases hop : pyOr bar.o bar.O with _ | op <;>
        rcases hcp : pyOr bar.c bar.C with _ | cp <;>
          simp [hop, hcp]
  · rintro bar rest op cp rfl hop hcp hne
    simp [fetch_ticker_200, hop, hcp, hne]

/-- Witness for C3: a bar with open 4, close 5 yields the quote ⟨4, 5⟩. -/
theorem c3_http200_classification_witness :
    fetch_ticker_200 [⟨some 4, none, some 5, none⟩] = some ⟨4, 5⟩ :=
  (c3_http200_classification [⟨some 4, none, some 5, none⟩]).2
    ⟨some 4, none, some 5, none⟩ [] 4 5 rfl (by norm_num [pyOr]) (by norm_num [pyOr])
    (by norm_num)

/-- C8: the written record rounds percent_change to 4 fractional digits and
closing_price to 2; the query's `format_item` re-rounds both to 2 on read,
so the served values are the 2-digit roundings of the stored ones; and the
read-side rounding is genuinely coarser than the write-side one. -/
theorem c8_two_roundings (d : ℤ) (t : String) (pct close : ℚ) (now : String) :
    (write_winner_item d t pct close now).percent_change = pyRound 4 pct ∧
    (write_winner_item d t pct close now).closing_price = pyRound 2 close ∧
    format_item (write_winner_item d t pct close now).toRaw =
      .ok ⟨d, t, pyRound 2 (pyRound 4 pct), pyRound 2 (pyRound 2 close)⟩ ∧
    pyRound 2 (pyRound 4 (1/1000)) ≠ pyRound 4 (1/1000) := by
  refine ⟨rfl, rfl, rfl, ?_⟩
  norm_num [pyRound, roundHalfEven]

/-- `pymax` is `some` on any non-empty list. -/
theorem pymax_isSome {α : Type} (key : α → ℚ) (l : List α) (h : l ≠ []) :
    ∃ w, pymax key l = some w := by
  cases l with
  | nil => exact absurd rfl h
  | cons x xs => exact ⟨pyfold key x xs, rfl⟩

/-- C5: a run in which every watchlist ticker comes back absent performs no
storage write and returns status 200 with the "no data" body. -/
theorem c5_all_absent_no_data (trade_date : ℤ) (now : String) (key : String)
    (fetch : String → Option Quote) (write_ok : Bool)
    (h : ∀ t ∈ WATCHLIST, fetch t = none) :
    ingest_main trade_date now (some key) fetch write_ok =
      ⟨.ok (200, .noData trade_date), WATCHLIST.length, 0, []⟩ := by
  have hres : (WATCHLIST.filterMap fun t =>
      (fetch t).map fun q =>
        (⟨t, calculate_pct_change q.O q.C, q.C⟩ : TickerResult)) = [] := by
    refine List.filterMap_eq_nil_iff.mpr fun t ht => ?_
    rw [h t ht]; rfl
  simp only [ingest_main, hres, pymax]

/-- Witness for C5: every fetch absent on a concrete run. -/
theorem c5_all_absent_no_data_witness :
    ingest_main 0 "t0" (some "k") (fun _ => none) true =
      ⟨.ok (200, .noData 0), 6, 0, []⟩ :=
  c5_all_absent_no_data 0 "t0" "k" (fun _ => none) true (fun _ _ => rfl)

/-- C6: a credential-retrieval failure makes the run return status 500
immediately — zero ticker fetches attempted, zero writes; and when the
storage write fails, the exception propagates to the invoker after exactly
one write attempt (no retry) with nothing committed. -/
theorem c6_fatal_failures (trade_date : ℤ) (now : String) (key : String)
    (fetch : String → Option Quote) (t0 : String) (q0 : Quote)
    (ht0 : t0 ∈ WATCHLIST) (hq0 : fetch t0 = some q0) :
    (∀ (fetch' : String → Option Quote) (w : Bool),
      ingest_main trade_date now none fetch' w =
        ⟨.ok (500, .credFailure), 0, 0, []⟩) ∧
    (ingest_main trade_date now (some key) fetch false).response =
        .error "ClientError" ∧
    (ingest_main trade_date now (some key) fetch false).write_attempts = 1 ∧
    (ingest_main trade_date now (some key) fetch false).writes = [] := by
  have hne : (WATCHLIST.filterMap fun t =>
      (fetch t).map fun q =>
        (⟨t, calculate_pct_change q.O q.C, q.C⟩ : TickerResult)) ≠ [] := by
    intro hnil
    have := List.filterMap_eq_nil_iff.mp hnil t0 ht0
    rw [hq0] at this
    exact Option.noConfusion this
  obtain ⟨w, hw⟩ := pymax_isSome (fun r => |r.pct_change|) _ hne
  refine ⟨fun fetch' w' => rfl, ?_, ?_, ?_⟩ <;> simp only [ingest_main, hw] <;> rfl

/-- Witness for C6 on a concrete fetch oracle with one successful ticker. -/
theorem c6_fatal_failures_witness :
    (∀ (fetch' : String → Option Quote) (w : Bool),
      ingest_main 0 "t0" none fetch' w = ⟨.ok (500, .credFailure), 0, 0, []⟩) ∧
    (ingest_main 0 "t0" (some "k")
        (fun t => if t = "AAPL" then some ⟨4, 5⟩ else none) false).response =
      .error "ClientError" ∧
    (ingest_main 0 "t0" (some "k")
        (fun t => if t = "AAPL" then some ⟨4, 5⟩ else none) false).write_attempts = 1 ∧
    (ingest_main 0 "t0" (some "k")
        (fun t => if t = "AAPL" then some ⟨4, 5⟩ else none) false).writes = [] :=
  c6_fatal_failures 0 "t0" "k" (fun t => if t = "AAPL" then some ⟨4, 5⟩ else none)
    "AAPL" ⟨4, 5⟩ (by simp [WATCHLIST]) (by simp)

/-- Invariant of the `max(..., key=...)` scan: the fold's result bounds the
accumulator and every scanned element, and it is either the accumulator
itself or sits at an index strictly dominating everything before it. -/
theorem pyfold_spec {α : Type} (key : α → ℚ) :
    ∀ (xs : List α) (a : α),
      (∀ x ∈ xs, key x ≤ key (pyfold key a xs)) ∧
      key a ≤ key (pyfold key a xs) ∧
      (pyfold key a xs = a ∨
        ∃ i b, xs.get? i = some b ∧ pyfold key a xs = b ∧ key a < key b ∧
          ∀ j c, j < i → xs.get? j = some c → key c < key b) := by
  intro xs
  induction xs with
  | nil =>
    intro a
    exact ⟨by simp, le_refl _, Or.inl rfl⟩
  | cons y ys ih =>
    intro a
    have hstep : pyfold key a (y :: ys) =
        pyfold key (if key a < key y then y else a) ys := rfl
    by_cases hy : key a < key y
    · rw [if_pos hy] at hstep
      obtain ⟨ih1, ih2, ih3⟩ := ih y
      rw [hstep]
      refine ⟨?_, ?_, ?_⟩
      · intro x hx
        rcases List.mem_cons.mp hx with rfl | hx
        · exact ih2
        · exact ih1 x hx
      · exact le_of_lt (lt_of_lt_of_le hy ih2)
      · rcases ih3 with heq | ⟨i, b, hget, hbe, hlt, hpre⟩
        · refine Or.inr ⟨0, y, rfl, heq, hy, ?_⟩
          intro j c hj _
          exact absurd hj (Nat.not_lt_zero j)
        · refine Or.inr ⟨i + 1, b, hget, hbe, lt_trans hy hlt, ?_⟩
          intro j c hj hget'
          cases j with
          | zero =>
            rw [List.get?_cons_zero] at hget'
            cases hget'
            exact hlt
          | succ j' =>
            rw [List.get?_cons_succ] at hget'
            exact hpre j' c (Nat.lt_of_succ_lt_succ hj) hget'
    · rw [if_neg hy] at hstep
      obtain ⟨ih1, ih2, ih3⟩ := ih a
      rw [hstep]
      have hya : key y ≤ key a := le_of_not_lt hy
      refine ⟨?_, ih2, ?_⟩
      · intro x hx
        rcases List.mem_cons.mp hx with rfl | hx
        · exact le_trans hya ih2
        · exact ih1 x hx
      · rcases ih3 with heq | ⟨i, b, hget, hbe, hlt, hpre⟩
        · exact Or.inl heq
        · refine Or.inr ⟨i + 1, b, hget, hbe, hlt, ?_⟩
          intro j c hj hget'
          cases j with
          | zero =>
            rw [List.get?_cons_zero] at hget'
            cases hget'
            exact lt_of_le_of_lt hya hlt
          | succ j' =>
            rw [List.get?_cons_succ] at hget'
            exact hpre j' c (Nat.lt_of_succ_lt_succ hj) hget'

/-- C1: on a non-empty results list, the winner selection
`max(results, key=lambda x: abs(x["pct_change"]))` returns an element whose
absolute percent change bounds every entry, sitting at a position all of
whose predecessors are strictly smaller in absolute percent change — i.e.
the earliest entry (in watchlist scan order) attaining the maximum. -/
theorem c1_select_winner (results : List TickerResult) (h : results ≠ []) :
    ∃ w i, pymax (fun r => |r.pct_change|) results = some w ∧
      results.get? i = some w ∧
      (∀ r ∈ results, |r.pct_change| ≤ |w.pct_change|) ∧
      ∀ j r, j < i → results.get? j = some r →
        |r.pct_change| < |w.pct_change| := by
  cases results with
  | nil => exact absurd rfl h
  | cons x xs =>
    obtain ⟨h1, h2, h3⟩ := pyfold_spec (fun r => |r.pct_change|) xs x
    rcases h3 with heq | ⟨i, b, hget, hbe, hlt, hpre⟩
    · refine ⟨pyfold (fun r => |r.pct_change|) x xs, 0, rfl, ?_, ?_, ?_⟩
      · rw [List.get?_cons_zero, heq]
      · intro r hr
        rcases List.mem_cons.mp hr with rfl | hr
        · exact h2
        · exact h1 r hr
      · intro j r hj _
        exact absurd hj (Nat.not_lt_zero j)
    · refine ⟨pyfold (fun r => |r.pct_change|) x xs, i + 1, rfl, ?_, ?_, ?_⟩
      · rw [List.get?_cons_succ, hget, hbe]
      · intro r hr
        rcases List.mem_cons.mp hr with rfl | hr
        · exact h2
        · exact h1 r hr
      · intro j r hj hget'
        rw [hbe]
        cases j with
        | zero =>
          rw [List.get?_cons_zero] at hget'
          cases hget'
          exact hlt
        | succ j' =>
          rw [List.get?_cons_succ] at hget'
          exact hpre j' r (Nat.lt_of_succ_lt_succ hj) hget'

/-- Witness for C1: a two-element tie on |pct| = 5 selects the first. -/
theorem c1_select_winner_witness :
    ∃ w i, pymax (fun r : TickerResult => |r.pct_change|)
        [⟨"AAPL", 5, 10⟩, ⟨"MSFT", -5, 20⟩] = some w ∧
      ([⟨"AAPL", 5, 10⟩, ⟨"MSFT", -5, 20⟩] : List TickerResult).get? i = some w ∧
      (∀ r ∈ ([⟨"AAPL", 5, 10⟩, ⟨"MSFT", -5, 20⟩] : List TickerResult),
        |r.pct_change| ≤ |w.pct_change|) ∧
      ∀ j r, j < i →
        ([⟨"AAPL", 5, 10⟩, ⟨"MSFT", -5, 20⟩] : List TickerResult).get? j = some r →
        |r.pct_change| < |w.pct_change| :=
  c1_select_winner [⟨"AAPL", 5, 10⟩, ⟨"MSFT", -5, 20⟩] (by simp)

/-- Retryable outcomes never yield a result: the loop keeps going (or runs
out of attempts) and ends with `None`. -/
theorem fetch_ticker_go_retryable_none (outcomes : List NetOutcome) :
    ∀ attempt, (∀ o ∈ outcomes, Retryable o) →
      (fetch_ticker_go attempt outcomes).1 = none := by
  induction outcomes with
  | nil => intro attempt _; rfl
  | cons o rest ih =>
    intro attempt hall
    by_cases hstop : MAX_RETRIES + 1 < attempt
    · simp [fetch_ticker_go, hstop]
    · rcases hall o (List.mem_cons_self o rest) with hto | ⟨s, b, heq, hs⟩
      · subst hto
        simpa [fetch_ticker_go, hstop] using
          ih (attempt + 1) fun o' ho' => hall o' (List.mem_cons_of_mem _ ho')
      · subst heq
        have hs200 : s ≠ 200 := by rcases hs with rfl | rfl | rfl | rfl | rfl <;> norm_num
        have htail := ih (attempt + 1) fun o' ho' => hall o' (List.mem_cons_of_mem _ ho')
        rcases hs with rfl | rfl | rfl | rfl | rfl <;>
          simpa [fetch_ticker_go, hstop] using htail

/-- C4: the per-ticker fetch retries exactly on HTTP 429 (sleeping
`RETRY_DELAY * 2^(attempt−1)`), on HTTP 500/502/503/504 (fixed
`RETRY_DELAY`), and on a timeout (fixed `RETRY_DELAY`); any other non-200
status and any connection failure returns absent at once with no further
attempt and no sleep; retryable outcomes alone can never produce a quote;
and once the attempt counter passes `MAX_RETRIES + 1` the loop is over and
the result is absent. -/
theorem c4_retry_policy :
    (∀ (b : List Bar) (rest : List NetOutcome) (attempt : ℕ),
      attempt ≤ MAX_RETRIES + 1 →
      fetch_ticker_go attempt (NetOutcome.http 429 b :: rest) =
        ((fetch_ticker_go (attempt + 1) rest).1,
          RETRY_DELAY * 2 ^ (attempt - 1) ::
            (fetch_ticker_go (attempt + 1) rest).2)) ∧
    (∀ (s : ℕ) (b : List Bar) (rest : List NetOutcome) (attempt : ℕ),
      (s = 500 ∨ s = 502 ∨ s = 503 ∨ s = 504) → attempt ≤ MAX_RETRIES + 1 →
      fetch_ticker_go attempt (NetOutcome.http s b :: rest) =
        ((fetch_ticker_go (attempt + 1) rest).1,
          RETRY_DELAY :: (fetch_ticker_go (attempt + 1) rest).2)) ∧
    (∀ (rest : List NetOutcome) (attempt : ℕ), attempt ≤ MAX_RETRIES + 1 →
      fetch_ticker_go attempt (NetOutcome.timeout :: rest) =
        ((fetch_ticker_go (attempt + 1) rest).1,
          RETRY_DELAY :: (fetch_ticker_go (attempt + 1) rest).2)) ∧
    (∀ (s : ℕ) (b : List Bar) (rest : List NetOutcome) (attempt : ℕ),
      attempt ≤ MAX_RETRIES + 1 → s ≠ 200 → s ≠ 429 →
      ¬(s = 500 ∨ s = 502 ∨ s = 503 ∨ s = 504) →
      fetch_ticker_go attempt (NetOutcome.http s b :: rest) = (none, [])) ∧
    (∀ (rest : List NetOutcome) (attempt : ℕ), attempt ≤ MAX_RETRIES + 1 →
      fetch_ticker_go attempt (NetOutcome.connError :: rest) = (none, [])) ∧
    (∀ (outcomes : List NetOutcome) (attempt : ℕ),
      (∀ o ∈ outcomes, Retryable o) →
      (fetch_ticker_go attempt outcomes).1 = none) ∧
    (∀ (outcomes : List NetOutcome) (attempt : ℕ), MAX_RETRIES + 1 < attempt →
      fetch_ticker_go attempt outcomes = (none, [])) := by
  refine ⟨?_, ?_, ?_, ?_, ?_, ?_, ?_⟩
  · intro b rest attempt hle
    simp [fetch_ticker_go, Nat.not_lt.mpr hle]
  · intro s b rest attempt hs hle
    have hs200 : s ≠ 200 := by rcases hs with rfl | rfl | rfl | rfl <;> norm_num
    have hs429 : s ≠ 429 := by rcases hs with rfl | rfl | rfl | rfl <;> norm_num
    simp [fetch_ticker_go, Nat.not_lt.mpr hle, hs200, hs429, hs]
  · intro rest attempt hle
    simp [fetch_ticker_go, Nat.not_lt.mpr hle]
  · intro s b rest attempt hle hs200 hs429 hsother
    simp [fetch_ticker_go, Nat.not_lt.mpr hle, hs200, hs429, hsother]
  · intro rest attempt hle
    simp [fetch_ticker_go, Nat.not_lt.mpr hle]
  · intro outcomes attempt hall
    exact fetch_ticker_go_retryable_none outcomes attempt hall
  · intro outcomes attempt hgt
    cases outcomes with
    | nil => rfl
    | cons o rest => simp [fetch_ticker_go, hgt]

/-- Witness for C4: concrete attempts exercising each branch of the
policy — 429 backoff, 503 fixed delay, timeout fixed delay, 404 immediate
absent, connection error immediate absent, all-retryable exhaustion, and
the attempt-counter cutoff. -/
theorem c4_retry_policy_witness :
    fetch_ticker_go 1 [NetOutcome.http 429 []] =
      ((fetch_ticker_go 2 []).1,
        RETRY_DELAY * 2 ^ (1 - 1) :: (fetch_ticker_go 2 []).2) ∧
    fetch_ticker_go 1 [NetOutcome.http 503 []] =
      ((fetch_ticker_go 2 []).1, RETRY_DELAY :: (fetch_ticker_go 2 []).2) ∧
    fetch_ticker_go 1 [NetOutcome.timeout] =
      ((fetch_ticker_go 2 []).1, RETRY_DELAY :: (fetch_ticker_go 2 []).2) ∧
    fetch_ticker_go 1 [NetOutcome.http 404 []] = (none, []) ∧
    fetch_ticker_go 1 [NetOutcome.connError] = (none, []) ∧
    (fetch_ticker_go 1 [NetOutcome.http 429 [], NetOutcome.timeout,
        NetOutcome.http 500 [], NetOutcome.http 429 []]).1 = none ∧
    fetch_ticker_go 4 [NetOutcome.http 429 []] = (none, []) :=
  ⟨c4_retry_policy.1 [] [] 1 (by norm_num [MAX_RETRIES]),
    c4_retry_policy.2.1 503 [] [] 1 (by norm_num) (by norm_num [MAX_RETRIES]),
    c4_retry_policy.2.2.1 [] 1 (by norm_num [MAX_RETRIES]),
    c4_retry_policy.2.2.2.1 404 [] [] 1 (by norm_num [MAX_RETRIES]) (by norm_num)
      (by norm_num) (by norm_num),
    c4_retry_policy.2.2.2.2.1 [] 1 (by norm_num [MAX_RETRIES]),
    c4_retry_policy.2.2.2.2.2.1 _ 1 (by
      intro o ho
      simp only [List.mem_cons, List.not_mem_nil, or_false] at ho
      rcases ho with rfl | rfl | rfl | rfl
      · exact Or.inr ⟨429, [], rfl, Or.inl rfl⟩
      · exact Or.inl rfl
      · exact Or.inr ⟨500, [], rfl, Or.inr (Or.inl rfl)⟩
      · exact Or.inr ⟨429, [], rfl, Or.inl rfl⟩),
    c4_retry_policy.2.2.2.2.2.2 [NetOutcome.http 429 []] 4 (by norm_num [MAX_RETRIES])⟩

/-- A successfully formatted record carries the raw item's date. -/
theorem format_item_date (it : RawItem) (f : FormattedItem)
    (h : format_item it = .ok f) : it.date = some f.date := by
  rcases hd : it.date with _ | d
  · rw [format_item, hd] at h
    exact Except.noConfusion h
  · rcases ht : it.ticker with _ | t
    · rw [format_item, hd, ht] at h
      exact Except.noConfusion h
    · rw [format_item, hd, ht] at h
      cases h
      rfl

/-- `formatAll` succeeds when every item carries its date and ticker, and
every output comes from formatting some input item. -/
theorem formatAll_ok (items : List RawItem)
    (h : ∀ it ∈ items, it.date ≠ none ∧ it.ticker ≠ none) :
    ∃ fs, formatAll items = .ok fs ∧
      ∀ f ∈ fs, ∃ it ∈ items, format_item it = .ok f := by
  induction items with
  | nil => exact ⟨[], rfl, by simp⟩
  | cons it rest ih =>
    obtain ⟨hd, ht⟩ := h it (List.mem_cons_self it rest)
    obtain ⟨fs, hfs, hsrc⟩ := ih fun it' h' => h it' (List.mem_cons_of_mem _ h')
    rcases hdd : it.date with _ | d
    · exact absurd hdd hd
    · rcases htt : it.ticker with _ | t
      · exact absurd htt ht
      · refine ⟨⟨d, t, pyRound 2 (it.percent_change.getD 0),
          pyRound 2 (it.closing_price.getD 0)⟩ :: fs, ?_, ?_⟩
        · rw [formatAll, format_item, hdd, htt, hfs]
        · intro f hf
          rcases List.mem_cons.mp hf with rfl | hf
          · exact ⟨it, List.mem_cons_self it rest, by rw [format_item, hdd, htt]⟩
          · obtain ⟨it', hit', hok⟩ := hsrc f hf
            exact ⟨it', List.mem_cons_of_mem _ hit', hok⟩

/-- If any item in the batch fails to format, the whole comprehension
raises. -/
theorem formatAll_error_of_mem (items : List RawItem) (it : RawItem)
    (e : PyErr) (hit : it ∈ items) (he : format_item it = .error e) :
    ∃ e', formatAll items = .error e' := by
  induction items with
  | nil => exact absurd hit (List.not_mem_nil it)
  | cons x rest ih =>
    rcases List.mem_cons.mp hit with rfl | hmem
    · exact ⟨e, by rw [formatAll, he]⟩
    · rcases hx : format_item x with e' | f
      · exact ⟨e', by rw [formatAll, hx]⟩
      · obtain ⟨e', he'⟩ := ih hmem
        exact ⟨e', by rw [formatAll, hx, he']⟩

/-- Membership is preserved by the stable descending insert. -/
theorem mem_insertDesc (x a : FormattedItem) :
    ∀ l, a ∈ insertDesc x l ↔ a = x ∨ a ∈ l := by
  intro l
  induction l with
  | nil => simp [insertDesc]
  | cons y ys ih =>
    by_cases hc : y.date ≤ x.date
    · simp [insertDesc, hc]
    · simp only [insertDesc, if_neg hc, List.mem_cons, ih]
      tauto

/-- Membership is preserved by the descending sort. -/
theorem mem_sortDesc (a : FormattedItem) :
    ∀ l, a ∈ sortDesc l ↔ a ∈ l := by
  intro l
  induction l with
  | nil => simp [sortDesc]
  | cons x xs ih =>
    simp only [sortDesc, mem_insertDesc, List.mem_cons, ih]

/-- Inserting into a date-descending list keeps it date-descending. -/
theorem sorted_insertDesc (x : FormattedItem) :
    ∀ l, List.Sorted (fun a b : FormattedItem => b.date ≤ a.date) l →
      List.Sorted (fun a b : FormattedItem => b.date ≤ a.date) (insertDesc x l) := by
  intro l
  induction l with
  | nil => intro _; simp [insertDesc]
  | cons y ys ih =>
    intro hs
    rw [List.sorted_cons] at hs
    obtain ⟨hy, hys⟩ := hs
    by_cases hc : y.date ≤ x.date
    · rw [insertDesc, if_pos hc, List.sorted_cons]
      refine ⟨?_, List.sorted_cons.mpr ⟨hy, hys⟩⟩
      intro b hb
      rcases List.mem_cons.mp hb with rfl | hb
      · exact hc
      · exact le_trans (hy b hb) hc
    · rw [insertDesc, if_neg hc, List.sorted_cons]
      refine ⟨?_, ih hys⟩
      intro b hb
      rcases (mem_insertDesc x b ys).mp hb with rfl | hb
      · exact le_of_lt (lt_of_not_le hc)
      · exact hy b hb

/-- `sortDesc` always yields a date-descending list. -/
theorem sorted_sortDesc :
    ∀ l, List.Sorted (fun a b : FormattedItem => b.date ≤ a.date) (sortDesc l) := by
  intro l
  induction l with
  | nil => simp [sortDesc]
  | cons x xs ih => exact sorted_insertDesc x (sortDesc xs) ih

/-- C7: the query requests exactly the 7 calendar dates today − 0 … today − 6;
on a well-formed store the GET response is a 200 whose movers all carry one
of those dates, sorted most-recent-first, with count equal to the number of
movers returned. -/
theorem c7_recent_movers (today : ℤ) (store : ℤ → Option RawItem)
    (hwf : ∀ d it, store d = some it → it.date = some d ∧ it.ticker ≠ none) :
    get_date_range today DAYS_TO_RETURN =
      [today, today - 1, today - 2, today - 3, today - 4, today - 5, today - 6] ∧
    ∃ movers,
      query_main "GET" today (.ok store) =
        ⟨200, CORS_HEADERS, .moversBody movers movers.length⟩ ∧
      (∀ m ∈ movers, m.date ∈ get_date_range today DAYS_TO_RETURN) ∧
      List.Sorted (fun a b : FormattedItem => b.date ≤ a.date) movers := by
  constructor
  · simp only [get_date_range, DAYS_TO_RETURN]
    rw [show List.range 7 = [0, 1, 2, 3, 4, 5, 6] from rfl]
    simp only [List.map_cons, List.map_nil]
    norm_num
  · have hitems : ∀ it ∈ query_movers (get_date_range today DAYS_TO_RETURN) store,
        it.date ≠ none ∧ it.ticker ≠ none := by
      intro it hit
      obtain ⟨d, _, hsd⟩ := List.mem_filterMap.mp hit
      obtain ⟨hdate, hticker⟩ := hwf d it hsd
      exact ⟨by rw [hdate]; exact fun h => Option.noConfusion h, hticker⟩
    obtain ⟨fs, hfs, hsrc⟩ := formatAll_ok _ hitems
    refine ⟨sortDesc fs, ?_, ?_, sorted_sortDesc fs⟩
    · simp [query_main, hfs]
    · intro m hm
      obtain ⟨it, hit, hok⟩ := hsrc m ((mem_sortDesc m fs).mp hm)
      obtain ⟨d, hd, hsd⟩ := List.mem_filterMap.mp hit
      have hdate := (hwf d it hsd).1
      have := format_item_date it m hok
      rw [hdate] at this
      cases this
      exact hd

/-- Witness for C7 on the empty store. -/
theorem c7_recent_movers_witness :
    get_date_range 0 DAYS_TO_RETURN = [0, -1, -2, -3, -4, -5, -6] ∧
    ∃ movers,
      query_main "GET" 0 (.ok fun _ => none) =
        ⟨200, CORS_HEADERS, .moversBody movers movers.length⟩ ∧
      (∀ m ∈ movers, m.date ∈ get_date_range 0 DAYS_TO_RETURN) ∧
      List.Sorted (fun a b : FormattedItem => b.date ≤ a.date) movers :=
  c7_recent_movers 0 (fun _ => none) (fun _ _ h => Option.noConfusion h)

/-- C9: any exception inside the GET handler's try block — whether the
storage round trip raised, or formatting did — produces a 500 response with
the full CORS header set and the generic "Internal server error" body. -/
theorem c9_error_boundary (today : ℤ) (store : ℤ → Option RawItem) (e : PyErr)
    (hfmt : formatAll (query_movers (get_date_range today DAYS_TO_RETURN) store) =
      .error e) :
    (∀ (e' : PyErr) (today' : ℤ),
      query_main "GET" today' (.error e') =
        ⟨500, CORS_HEADERS, .errBody "Internal server error" e'⟩) ∧
    query_main "GET" today (.ok store) =
      ⟨500, CORS_HEADERS, .errBody "Internal server error" e⟩ := by
  refine ⟨fun e' today' => rfl, ?_⟩
  simp [query_main, hfmt]

/-- Witness for C9: a store whose single in-window record lacks its date
field, so formatting raises `KeyError("date")`. -/
theorem c9_error_boundary_witness :
    query_main "GET" 0
        (.ok fun d => if d = 0 then some ⟨none, some "AAPL", some 1, some 2⟩ else none) =
      ⟨500, CORS_HEADERS, .errBody "Internal server error" (.keyError "date")⟩ :=
  (c9_error_boundary 0
      (fun d => if d = 0 then some ⟨none, some "AAPL", some 1, some 2⟩ else none)
      (.keyError "date") rfl).2

/-- C10: a batch-read record lacking its date or ticker field fails the
whole request with a 500 (nothing is skipped); records lacking only the
numeric fields are tolerated, defaulting both to 0. -/
theorem c10_missing_fields (today : ℤ) (store : ℤ → Option RawItem)
    (d0 : ℤ) (it0 : RawItem)
    (hd0 : d0 ∈ get_date_range today DAYS_TO_RETURN)
    (hs0 : store d0 = some it0)
    (hbad : it0.date = none ∨ it0.ticker = none) :
    (query_main "GET" today (.ok store)).statusCode = 500 ∧
    (∀ (store' : ℤ → Option RawItem),
      (∀ d it, store' d = some it → it.date ≠ none ∧ it.ticker ≠ none) →
      (query_main "GET" today (.ok store')).statusCode = 200) ∧
    (∀ (d : ℤ) (t : String),
      format_item ⟨some d, some t, none, none⟩ = .ok ⟨d, t, 0, 0⟩) := by
  refine ⟨?_, ?_, ?_⟩
  · have hmem : it0 ∈ query_movers (get_date_range today DAYS_TO_RETURN) store :=
      List.mem_filterMap.mpr ⟨d0, hd0, hs0⟩
    have herr : ∃ e, format_item it0 = .error e := by
      rcases hbad with hb | hb
      · exact ⟨.keyError "date", by rw [format_item, hb]⟩
      · rcases hdd : it0.date with _ | d
        · exact ⟨.keyError "date", by rw [format_item, hdd]⟩
        · exact ⟨.keyError "ticker", by rw [format_item, hdd, hb]⟩
    obtain ⟨e, he⟩ := herr
    obtain ⟨e', he'⟩ := formatAll_error_of_mem _ it0 e hmem he
    simp [query_main, he']
  · intro store' hwf
    have hitems : ∀ it ∈ query_movers (get_date_range today DAYS_TO_RETURN) store',
        it.date ≠ none ∧ it.ticker ≠ none := by
      intro it hit
      obtain ⟨d, _, hsd⟩ := List.mem_filterMap.mp hit
      exact hwf d it hsd
    obtain ⟨fs, hfs, _⟩ := formatAll_ok _ hitems
    simp [query_main, hfs]
  · intro d t
    have h0 : pyRound 2 0 = 0 := by norm_num [pyRound, roundHalfEven]
    simp [format_item, h0]

/-- Witness for C10: an in-window record with no date field yields a 500. -/
theorem c10_missing_fields_witness :
    (query_main "GET" 0
        (.ok fun d => if d = 0 then some ⟨none, some "AAPL", some 1, some 2⟩ else none)
      ).statusCode = 500 ∧
    (∀ (store' : ℤ → Option RawItem),
      (∀ d it, store' d = some it → it.date ≠ none ∧ it.ticker ≠ none) →
      (query_main "GET" 0 (.ok store')).statusCode = 200) ∧
    (∀ (d : ℤ) (t : String),
      format_item ⟨some d, some t, none, none⟩ = .ok ⟨d, t, 0, 0⟩) :=
  c10_missing_fields 0
    (fun d => if d = 0 then some ⟨none, some "AAPL", some 1, some 2⟩ else none)
    0 ⟨none, some "AAPL", some 1, some 2⟩ (by decide) (by decide) (Or.inl rfl)

end StocksPipeline
